import Mathlib

/-!
Verification of the timeline-normalization and trend-analysis engine of
`battery-stat.py` (a battery charge-history visualizer), via a shallow
embedding in Lean.

Modelling conventions:
* Python floats are modelled as rationals (`ℚ`); all arithmetic in the
  program stays within exactly representable values for the claims below.
* Fallible Python code (exceptions such as `IndexError`, `ValueError`,
  `ZeroDivisionError`) is modelled with `Option`: `none` means the Python
  code raises.
* Heterogeneous Python lists (the rows of `data_sheet`) are modelled with
  the sum type `PyVal`.
-/

/-! ## Constants of the program -/

/-- `BATTERY_MAX_CHARGE = 85` (battery-stat.py line 7). -/
def BATTERY_MAX_CHARGE : ℚ := 85

/-- `MAX_GAP = .2 * AN_HOUR.total_seconds()` (battery-stat.py line 85),
i.e. 0.2 hours expressed in seconds. -/
def MAX_GAP : ℚ := (2 / 10) * 3600

/-! ## Data ingestion (battery-stat.py lines 71-82)

The program splits each line on tabs, then maps every line to the
two-element list `[int(line[0]), float(line[1])]`, and finally filters
out rows with `line[2] != 'unknown'`.  A Python value appearing in a row
is one of an int, a float, or a string. -/

/-- A Python value stored in a `data_sheet` row. -/
inductive PyVal where
  | int (z : ℤ) : PyVal
  | float (q : ℚ) : PyVal
  | str (s : String) : PyVal
deriving DecidableEq

/-- Model of Python `float(s)` for the decimal literals occurring in the
data files: an optional integer part and an optional fractional part
separated by a dot.  `none` models `ValueError`. -/
def parseFloat (s : String) : Option ℚ :=
  match s.splitOn "." with
  | [a] => (a.toInt?).map fun z => (z : ℚ)
  | [a, b] =>
    match a.toInt?, b.toNat? with
    | some z, some frac =>
      some ((z : ℚ) + (if z < 0 then -(frac : ℚ) else (frac : ℚ)) / (10 : ℚ) ^ b.length)
    | _, _ => none
  | _ => none

/-- The comprehension `[int(line[0]), float(line[1])]` applied to one
tab-split line (battery-stat.py lines 72-77).  `none` models an
`IndexError` (missing field) or `ValueError` (non-numeric field). -/
def parseLine (fields : List String) : Option (List PyVal) := do
  let s0 ← fields[0]?
  let s1 ← fields[1]?
  let t ← s0.toInt?
  let c ← parseFloat s1
  some [PyVal.int t, PyVal.float c]

/-- The predicate of the filtering comprehension on line 80:
`line[2] != 'unknown'`.  Reading index 2 of a too-short row raises
`IndexError`, modelled by `none`. -/
def keepLine (row : List PyVal) : Option Bool :=
  (row[2]?).map fun v => decide (v ≠ PyVal.str "unknown")

/-- Python list comprehension `[x for x in l if p x]` where the predicate
itself may raise. -/
def filterOpt {α : Type} (p : α → Option Bool) : List α → Option (List α)
  | [] => some []
  | x :: xs => do
    let b ← p x
    let rest ← filterOpt p xs
    some (if b then x :: rest else rest)

/-- The whole ingestion pipeline of battery-stat.py lines 71-80: split
each raw line on tabs, parse `[int(line[0]), float(line[1])]` for every
line, then keep the rows with `line[2] != 'unknown'`. -/
def load (rawLines : List String) : Option (List (List PyVal)) := do
  let sheet := rawLines.map fun line => line.splitOn "\t"
  let parsed ← sheet.mapM parseLine
  filterOpt keepLine parsed

/-! ## Gap compression (battery-stat.py lines 85-93)

```python
timeline_zipped = list(timeline)
for idx in range(1, len(timeline_zipped)):
    delta = timeline_zipped[idx] - timeline_zipped[idx - 1]
    if delta > MAX_GAP:
        timeline_zipped[:idx] = [
            timestamp + delta - MAX_GAP
            for timestamp in timeline_zipped[:idx]
        ]
```

The slice assignment adds `delta - MAX_GAP` to the first `idx` elements;
`addToPrefix` models it.  The threshold is kept as a parameter `θ`
(instantiated with `MAX_GAP` by the program). -/

/-- Add `c` to the first `n` elements of a list (the slice assignment
`tl[:idx] = [t + c for t in tl[:idx]]`). -/
def addToPrefix (c : ℚ) : ℕ → List ℚ → List ℚ
  | _, [] => []
  | 0, l => l
  | n + 1, t :: ts => (t + c) :: addToPrefix c n ts

/-- One iteration of the compression loop at index `idx`. -/
def zipStep (θ : ℚ) (tl : List ℚ) (idx : ℕ) : List ℚ :=
  let delta := tl.getD idx 0 - tl.getD (idx - 1) 0
  if θ < delta then addToPrefix (delta - θ) idx tl else tl

/-- The compressed timeline: fold the loop body over
`range(1, len(timeline))`. -/
def timeline_zipped (θ : ℚ) (tl : List ℚ) : List ℚ :=
  (List.range' 1 (tl.length - 1)).foldl (zipStep θ) tl

/-- The gap of the raw timeline at index `i`: `tl[i] - tl[i-1]`. -/
def gapAt (tl : List ℚ) (i : ℕ) : ℚ :=
  tl.getD i 0 - tl.getD (i - 1) 0

/-- Amount a gap of size `g` is shrunk by: `g - θ` when `g > θ`, else 0. -/
def excess (θ g : ℚ) : ℚ := if θ < g then g - θ else 0

/-- Total forward shift received by index `j` after the loop has
processed indices `1..k`: the sum of the excesses of the gaps strictly
after `j`. -/
def shiftSum (θ : ℚ) (tl : List ℚ) (j k : ℕ) : ℚ :=
  ∑ i ∈ Finset.Ioc j k, excess θ (gapAt tl i)

/-- The "now" anchor used when the compressed view is active
(battery-stat.py lines 254-256): the last compressed timestamp. -/
def compressedNow (tl : List ℚ) : Option ℚ :=
  (timeline_zipped MAX_GAP tl).getLast?

/-! ## Trend analysis (battery-stat.py lines 280-319) -/

/-- Python division: raises `ZeroDivisionError` on a zero denominator. -/
def pyDiv (a b : ℚ) : Option ℚ := if b = 0 then none else some (a / b)

/-- Result of `BatteryStat.analyze`: either the "select monotonic domain"
placeholder title (`noTrend`) or the computed statistics. -/
inductive TrendResult where
  | noTrend : TrendResult
  | trend (rate life full_life : ℚ) (left : Option ℚ) : TrendResult
deriving DecidableEq

/-- `all(x <= y for x, y in zip(l, l[1:]))`. -/
def nonDec (l : List ℚ) : Bool :=
  (l.zip l.tail).all fun p => p.1 ≤ p.2

/-- `all(x >= y for x, y in zip(l, l[1:]))`. -/
def nonInc (l : List ℚ) : Bool :=
  (l.zip l.tail).all fun p => p.2 ≤ p.1

/-- `BatteryStat.analyze` (battery-stat.py lines 280-311) on the selected
window `timeline, charge_data`, with the module-level `data_sheet` and
`current_charge` passed explicitly.  `none` models a raised exception
(`ZeroDivisionError` or `IndexError`). -/
def analyze (timeline charge_data : List ℚ) (data_sheet : List (List PyVal))
    (current_charge : ℚ) : Option TrendResult :=
  if timeline.length ≤ 2 ∨ (nonDec charge_data = false ∧ nonInc charge_data = false) then
    some TrendResult.noTrend
  else do
    let tLast ← timeline.getLast?
    let tFirst ← timeline.head?
    let t_range := (tLast - tFirst) / 3600
    let cLast ← charge_data.getLast?
    let cFirst ← charge_data.head?
    let rate ← pyDiv (cLast - cFirst) t_range
    let life ← pyDiv BATTERY_MAX_CHARGE |rate|
    let full_life ← pyDiv 100 |rate|
    let row ← data_sheet.getLast?
    let status ← row.getLast?
    let left ←
      if status = PyVal.str "discharging" then
        (pyDiv current_charge |rate|).map some
      else if status = PyVal.str "charging" then
        (pyDiv (BATTERY_MAX_CHARGE - current_charge) |rate|).map some
      else some none
    some (TrendResult.trend rate life full_life left)

/-! ## Window update (battery-stat.py lines 261-267 and 353-358) -/

/-- Result of the slider-bound correction in `BatteryStat.update`:
the history bounds actually used, plus the value pushed back into the
"From" slider by `set_val`. -/
structure UpdateBounds where
  min_history : ℚ
  max_history : ℚ
  slider_max_val : ℚ
deriving DecidableEq

/-- `BatteryStat.update` lines 353-358: negate the slider values, and if
`min_history >= max_history` force `max_history = min_history + .1`,
writing `-max_history` back into the slider. -/
def update (slider_min_val slider_max_val : ℚ) : UpdateBounds :=
  let min_history := - slider_min_val
  let max_history := - slider_max_val
  if min_history ≥ max_history then
    { min_history := min_history
      max_history := min_history + 1 / 10
      slider_max_val := - (min_history + 1 / 10) }
  else
    { min_history := min_history
      max_history := max_history
      slider_max_val := slider_max_val }

/-- `BatteryStat.format` lines 261-267: the plot range
`[t_start, t_end] = [now - 3600 * max_history, now - 3600 * min_history]`. -/
def plot_range (now min_history max_history : ℚ) : ℚ × ℚ :=
  (now - 3600 * max_history, now - 3600 * min_history)

/-- The window computed by one `update` interaction: `update` corrects the
bounds and hands them to `format`. -/
def update_window (slider_min_val slider_max_val now : ℚ) : ℚ × ℚ :=
  plot_range now (update slider_min_val slider_max_val).min_history
    (update slider_min_val slider_max_val).max_history

/-! ## Basic facts -/

theorem MAX_GAP_eq : MAX_GAP = 720 := by norm_num [MAX_GAP]

theorem pyDiv_of_ne (a b : ℚ) (h : b ≠ 0) : pyDiv a b = some (a / b) := if_neg h

/-! ## Closed form of the compression loop

After the loop has processed indices `1..k`, the element at index `j`
equals the raw element plus the accumulated excess of the gaps in
`(j, k]`.  This is proved by induction on `k` and then instantiated at
`k = length - 1` to characterize `timeline_zipped`. -/

theorem addToPrefix_length (c : ℚ) (n : ℕ) (l : List ℚ) :
    (addToPrefix c n l).length = l.length := by
  induction l generalizing n with
  | nil => cases n <;> rfl
  | cons t ts ih =>
    cases n with
    | zero => rfl
    | succ m => simp [addToPrefix, ih]

theorem addToPrefix_getElem? (c : ℚ) (n : ℕ) (l : List ℚ) (j : ℕ) :
    (addToPrefix c n l)[j]? = if j < n then (l[j]?).map (· + c) else l[j]? := by
  induction l generalizing n j with
  | nil => cases n <;> simp [addToPrefix]
  | cons t ts ih =>
    cases n with
    | zero => simp [addToPrefix]
    | succ m =>
      cases j with
      | zero => simp [addToPrefix]
      | succ i => simpa [addToPrefix, Nat.succ_lt_succ_iff] using ih m i

theorem zipStep_length (θ : ℚ) (tl : List ℚ) (idx : ℕ) :
    (zipStep θ tl idx).length = tl.length := by
  unfold zipStep
  dsimp only
  split
  · exact addToPrefix_length _ _ _
  · rfl

theorem foldl_zipStep_length (θ : ℚ) (is : List ℕ) (tl : List ℚ) :
    (is.foldl (zipStep θ) tl).length = tl.length := by
  induction is generalizing tl with
  | nil => rfl
  | cons i is ih => rw [List.foldl_cons, ih, zipStep_length]

theorem timeline_zipped_length (θ : ℚ) (tl : List ℚ) :
    (timeline_zipped θ tl).length = tl.length :=
  foldl_zipStep_length θ _ tl

theorem shiftSum_of_le (θ : ℚ) (tl : List ℚ) {j k : ℕ} (h : k ≤ j) :
    shiftSum θ tl j k = 0 := by
  unfold shiftSum
  rw [Finset.Ioc_eq_empty (by omega), Finset.sum_empty]

theorem shiftSum_succ (θ : ℚ) (tl : List ℚ) {j k : ℕ} (h : j ≤ k) :
    shiftSum θ tl j (k + 1) = shiftSum θ tl j k + excess θ (gapAt tl (k + 1)) := by
  unfold shiftSum
  exact Finset.sum_Ioc_succ_top h _

theorem zipStep_eq (θ : ℚ) (tl : List ℚ) (idx : ℕ) :
    zipStep θ tl idx =
      if θ < tl.getD idx 0 - tl.getD (idx - 1) 0 then
        addToPrefix (tl.getD idx 0 - tl.getD (idx - 1) 0 - θ) idx tl
      else tl := rfl

theorem foldl_zipStep_getElem? (θ : ℚ) (tl : List ℚ) :
    ∀ m : ℕ, m < tl.length → ∀ j : ℕ,
      ((List.range' 1 m).foldl (zipStep θ) tl)[j]? =
        (tl[j]?).map fun t => t + shiftSum θ tl j m := by
  intro m
  induction m with
  | zero =>
    intro _ j
    rw [shiftSum_of_le θ tl (Nat.zero_le j)]
    show tl[j]? = _
    cases h : tl[j]? <;> simp
  | succ k ih =>
    intro hm j
    have hk : k < tl.length := Nat.lt_of_succ_lt hm
    have hL := ih hk
    rw [List.range'_concat, List.foldl_append, List.foldl_cons, List.foldl_nil]
    have h1k : 1 + 1 * k = k + 1 := by omega
    rw [h1k]
    have hgetD : ∀ i : ℕ, i < tl.length →
        ((List.range' 1 k).foldl (zipStep θ) tl).getD i 0 = tl.getD i 0 + shiftSum θ tl i k := by
      intro i hi
      rw [List.getD_eq_getElem?_getD, hL i, List.getElem?_eq_getElem hi,
        List.getD_eq_getElem?_getD, List.getElem?_eq_getElem hi]
      rfl
    rw [zipStep_eq]
    rw [(by omega : k + 1 - 1 = k)]
    rw [hgetD (k + 1) hm, hgetD k hk,
      shiftSum_of_le θ tl (Nat.le_succ k), shiftSum_of_le θ tl (le_refl k)]
    have hdelta : tl.getD (k + 1) 0 + 0 - (tl.getD k 0 + 0) = gapAt tl (k + 1) := by
      simp [gapAt]
    rw [hdelta]
    by_cases hbig : θ < gapAt tl (k + 1)
    · rw [if_pos hbig, addToPrefix_getElem?, hL j]
      by_cases hj : j < k + 1
      · rw [if_pos hj]
        have hsum := shiftSum_succ θ tl (by omega : j ≤ k)
        have hex : excess θ (gapAt tl (k + 1)) = gapAt tl (k + 1) - θ := if_pos hbig
        cases tl[j]? <;> simp [hsum, hex]
        ring
      · rw [if_neg hj]
        rw [shiftSum_of_le θ tl (by omega : k ≤ j), shiftSum_of_le θ tl (by omega : k + 1 ≤ j)]
    · rw [if_neg hbig, hL j]
      by_cases hj : j ≤ k
      · have hsum := shiftSum_succ θ tl hj
        have hex : excess θ (gapAt tl (k + 1)) = 0 := if_neg hbig
        rw [hsum, hex, add_zero]
      · rw [shiftSum_of_le θ tl (by omega : k ≤ j), shiftSum_of_le θ tl (by omega : k + 1 ≤ j)]

theorem timeline_zipped_getElem? (θ : ℚ) (tl : List ℚ) (j : ℕ) :
    (timeline_zipped θ tl)[j]? =
      (tl[j]?).map fun t => t + shiftSum θ tl j (tl.length - 1) := by
  unfold timeline_zipped
  cases tl with
  | nil => simp
  | cons t ts =>
    exact foldl_zipStep_getElem? θ (t :: ts) ((t :: ts).length - 1) (by simp) j

theorem timeline_zipped_getD (θ : ℚ) (tl : List ℚ) (i : ℕ) (hi : i < tl.length) :
    (timeline_zipped θ tl).getD i 0 = tl.getD i 0 + shiftSum θ tl i (tl.length - 1) := by
  rw [List.getD_eq_getElem?_getD, timeline_zipped_getElem?, List.getElem?_eq_getElem hi,
    List.getD_eq_getElem?_getD, List.getElem?_eq_getElem hi]
  rfl

theorem shiftSum_head (θ : ℚ) (tl : List ℚ) {j m : ℕ} (h : j < m) :
    shiftSum θ tl j m = excess θ (gapAt tl (j + 1)) + shiftSum θ tl (j + 1) m := by
  unfold shiftSum
  rw [← Finset.sum_Ioc_consecutive _ (Nat.le_succ j) h]
  congr 1
  rw [Nat.Ioc_succ_singleton, Finset.sum_singleton]

/-! ## Claims about the gap compressor -/

/-- Claim C7: for every non-decreasing input timestamp sequence and every
(nonnegative) threshold, the gap compressor's output has the same length
as the input and is itself non-decreasing. -/
theorem c7_compress_length_monotone (θ : ℚ) (hθ : 0 ≤ θ) (tl : List ℚ)
    (hmono : tl.Chain' (· ≤ ·)) :
    (timeline_zipped θ tl).length = tl.length ∧
      (timeline_zipped θ tl).Chain' (· ≤ ·) := by
  have hlen := timeline_zipped_length θ tl
  refine ⟨hlen, ?_⟩
  rw [List.chain'_iff_get]
  intro i hi
  rw [hlen] at hi
  have hi0 : i < tl.length := by omega
  have hi1 : i + 1 < tl.length := by omega
  have hi0' : i < (timeline_zipped θ tl).length := by omega
  have hi1' : i + 1 < (timeline_zipped θ tl).length := by omega
  have e : ∀ m : ℕ, m < tl.length → ∀ hm : m < (timeline_zipped θ tl).length,
      (timeline_zipped θ tl).get ⟨m, hm⟩ =
        tl.getD m 0 + shiftSum θ tl m (tl.length - 1) := by
    intro m hmtl hm
    have h1 : (timeline_zipped θ tl).get ⟨m, hm⟩ = (timeline_zipped θ tl).getD m 0 := by
      rw [List.getD_eq_getElem _ _ hm, List.get_eq_getElem]
    rw [h1, timeline_zipped_getD θ tl m hmtl]
  rw [List.get_eq_getElem, List.get_eq_getElem,
    ← List.get_eq_getElem (timeline_zipped θ tl) ⟨i, hi0'⟩,
    ← List.get_eq_getElem (timeline_zipped θ tl) ⟨i + 1, hi1'⟩,
    e i hi0 hi0', e (i + 1) hi1 hi1']
  rw [shiftSum_head θ tl (show i < tl.length - 1 by omega)]
  have hgap : gapAt tl (i + 1) = tl.getD (i + 1) 0 - tl.getD i 0 := by
    simp [gapAt]
  have hmono' : tl.getD i 0 ≤ tl.getD (i + 1) 0 := by
    rw [List.getD_eq_getElem _ _ hi0, List.getD_eq_getElem _ _ hi1]
    simpa [List.get_eq_getElem] using
      List.chain'_iff_get.mp hmono i (show i < tl.length - 1 by omega)
  have hex : excess θ (gapAt tl (i + 1)) ≤ gapAt tl (i + 1) := by
    unfold excess
    split
    · linarith
    · rw [hgap]; linarith
  linarith [hex, hgap]

/-- Witness for C7 at the program's threshold `720` on a concrete
non-decreasing series with one large gap. -/
theorem c7_compress_length_monotone_witness :
    (timeline_zipped 720 [0, 600, 18600]).length = ([0, 600, 18600] : List ℚ).length ∧
      (timeline_zipped 720 [0, 600, 18600]).Chain' (· ≤ ·) :=
  c7_compress_length_monotone 720 (by norm_num) [0, 600, 18600] (by norm_num)

/-- Claim C8: compression is idempotent — recompressing an
already-compressed timeline with the same threshold changes nothing. -/
theorem c8_compress_idempotent (θ : ℚ) (tl : List ℚ) :
    timeline_zipped θ (timeline_zipped θ tl) = timeline_zipped θ tl := by
  have hlen : (timeline_zipped θ tl).length = tl.length := timeline_zipped_length θ tl
  apply List.ext_getElem?
  intro j
  rw [timeline_zipped_getElem? θ (timeline_zipped θ tl) j]
  have hzero : shiftSum θ (timeline_zipped θ tl) j ((timeline_zipped θ tl).length - 1) = 0 := by
    unfold shiftSum
    apply Finset.sum_eq_zero
    intro i hi
    rw [Finset.mem_Ioc] at hi
    have hin : i < tl.length := by omega
    have him1 : i - 1 < tl.length := by omega
    have hgZ : gapAt (timeline_zipped θ tl) i = gapAt tl i - excess θ (gapAt tl i) := by
      unfold gapAt
      rw [timeline_zipped_getD θ tl i hin, timeline_zipped_getD θ tl (i - 1) him1]
      have hsplit : shiftSum θ tl (i - 1) (tl.length - 1) =
          excess θ (gapAt tl (i - 1 + 1)) + shiftSum θ tl (i - 1 + 1) (tl.length - 1) :=
        shiftSum_head θ tl (by omega)
      rw [(by omega : i - 1 + 1 = i)] at hsplit
      rw [hsplit]
      unfold gapAt
      ring
    rw [hgZ]
    by_cases hb : θ < gapAt tl i
    · have h1 : excess θ (gapAt tl i) = gapAt tl i - θ := if_pos hb
      rw [h1, (by ring : gapAt tl i - (gapAt tl i - θ) = θ)]
      exact if_neg (lt_irrefl θ)
    · have h1 : excess θ (gapAt tl i) = 0 := if_neg hb
      rw [h1, sub_zero]
      exact if_neg hb
  rw [hzero]
  cases h : (timeline_zipped θ tl)[j]? <;> simp

/-- Claim C9: with threshold `MAX_GAP` (0.2 hours = 720 s), a series whose
only above-threshold gap is one of 5 hours (18000 s) at position `p` is
compressed by shifting every timestamp before the gap forward by exactly
4.8 hours (17280 s) and leaving every timestamp at or after the gap
unchanged. -/
theorem c9_single_gap (tl : List ℚ) (p : ℕ) (hp1 : 1 ≤ p) (hpn : p < tl.length)
    (hgap : gapAt tl p = 18000)
    (hsmall : ∀ i : ℕ, 1 ≤ i → i < tl.length → i ≠ p → gapAt tl i ≤ MAX_GAP) :
    ∀ j : ℕ,
      (j < p → (timeline_zipped MAX_GAP tl)[j]? = (tl[j]?).map fun t => t + 17280) ∧
      (p ≤ j → (timeline_zipped MAX_GAP tl)[j]? = tl[j]?) := by
  have h720 : MAX_GAP = 720 := MAX_GAP_eq
  intro j
  constructor
  · intro hj
    rw [timeline_zipped_getElem?]
    have hmem : p ∈ Finset.Ioc j (tl.length - 1) := by
      rw [Finset.mem_Ioc]; omega
    have hrest : ∀ i ∈ Finset.Ioc j (tl.length - 1), i ≠ p →
        excess MAX_GAP (gapAt tl i) = 0 := by
      intro i hi hne
      rw [Finset.mem_Ioc] at hi
      have hs := hsmall i (by omega) (by omega) hne
      exact if_neg (by linarith)
    have hS : shiftSum MAX_GAP tl j (tl.length - 1) = 17280 := by
      unfold shiftSum
      rw [Finset.sum_eq_single_of_mem p hmem hrest, hgap]
      unfold excess
      rw [if_pos (by rw [h720]; norm_num), h720]
      norm_num
    rw [hS]
  · intro hj
    rw [timeline_zipped_getElem?]
    have hS : shiftSum MAX_GAP tl j (tl.length - 1) = 0 := by
      unfold shiftSum
      apply Finset.sum_eq_zero
      intro i hi
      rw [Finset.mem_Ioc] at hi
      have hs := hsmall i (by omega) (by omega) (by omega)
      exact if_neg (by linarith)
    rw [hS]
    cases h : tl[j]? <;> simp

/-- Witness for C9: concrete 5-sample series with a single 5-hour gap
between indices 2 and 3; earlier points shift by 17280 s, later ones
stay. -/
theorem c9_single_gap_witness :
    (timeline_zipped MAX_GAP [0, 600, 1200, 19200, 19800])[0]? = some 17280 ∧
      (timeline_zipped MAX_GAP [0, 600, 1200, 19200, 19800])[3]? = some 19200 := by
  have h := c9_single_gap [0, 600, 1200, 19200, 19800] 3 (by norm_num) (by norm_num)
    (by norm_num [gapAt])
    (by
      intro i h1 h2 h3
      have h2' : i < 5 := by simpa using h2
      interval_cases i
      · norm_num [gapAt, MAX_GAP]
      · norm_num [gapAt, MAX_GAP]
      · exact absurd rfl h3
      · norm_num [gapAt, MAX_GAP])
  refine ⟨?_, ?_⟩
  · have h0 := (h 0).1 (by norm_num)
    simpa using h0
  · have h3 := (h 3).2 (by norm_num)
    simpa using h3

/-- Claim C10: gap compression never modifies the final timestamp, so the
"now" anchor used in compressed mode equals the most recent raw sample's
timestamp. -/
theorem c10_last_timestamp_preserved (θ : ℚ) (tl : List ℚ) :
    (timeline_zipped θ tl).getLast? = tl.getLast? ∧ compressedNow tl = tl.getLast? := by
  have main : ∀ θ' : ℚ, (timeline_zipped θ' tl).getLast? = tl.getLast? := by
    intro θ'
    rw [List.getLast?_eq_getElem?, List.getLast?_eq_getElem?, timeline_zipped_length,
      timeline_zipped_getElem?, shiftSum_of_le θ' tl (le_refl _)]
    cases h : tl[tl.length - 1]? <;> simp
  exact ⟨main θ, main MAX_GAP⟩

/-! ## Claims about ingestion -/

theorem parseLine_shape {fields : List String} {row : List PyVal}
    (h : parseLine fields = some row) :
    ∃ t c, row = [PyVal.int t, PyVal.float c] := by
  unfold parseLine at h
  simp only [Option.bind_eq_bind, Option.bind_eq_some] at h
  obtain ⟨s0, -, s1, -, t, -, c, -, hrow⟩ := h
  exact ⟨t, c, by simpa using hrow.symm⟩

/-- Claim C1 (refuted): the ingestion pipeline fails on EVERY nonempty
input — the parse step keeps only `[timestamp, charge]`, so the
unknown-status filter's read of field index 2 raises `IndexError`
(`none`) on the first row; when a line fails to parse, `load` also
fails.  Hence `load` never succeeds on well-formed input. -/
theorem c1_load_fails (rawLines : List String) (h : rawLines ≠ []) :
    load rawLines = none := by
  unfold load
  rcases rawLines with _ | ⟨line, rest⟩
  · exact absurd rfl h
  · simp only [List.map_cons, List.mapM_cons]
    cases hp : parseLine (line.splitOn "\t") with
    | none => simp
    | some row =>
      obtain ⟨t, c, rfl⟩ := parseLine_shape hp
      cases hrest : (rest.map fun l => l.splitOn "\t").mapM parseLine with
      | none => simp
      | some rows =>
        simp [filterOpt, keepLine]

/-- Witness for C1: a single well-formed tab-separated line with numeric
timestamp and charge and status `discharging` still makes `load` fail. -/
theorem c1_load_fails_witness :
    (["1000\t50.0\tdischarging"] : List String) ≠ [] ∧
      load ["1000\t50.0\tdischarging"] = none :=
  ⟨by simp, c1_load_fails ["1000\t50.0\tdischarging"] (by simp)⟩

/-! ## Claims about the trend analyzer -/

/-- Claim C2 (refuted): in every `Trend` the analyzer can produce from
rows of the shape the parse step actually builds (`[int, float]`), the
remaining-time field is `none` — the status read `data_sheet[-1][-1]`
yields the charge float, which never equals `'discharging'` or
`'charging'`. -/
theorem c2_remaining_always_absent (tl cd : List ℚ) (sheet : List (List PyVal))
    (cc : ℚ) (hsheet : ∀ row ∈ sheet, ∃ t c, row = [PyVal.int t, PyVal.float c])
    (r l f : ℚ) (lft : Option ℚ)
    (h : analyze tl cd sheet cc = some (TrendResult.trend r l f lft)) :
    lft = none := by
  unfold analyze at h
  by_cases hg : tl.length ≤ 2 ∨ (nonDec cd = false ∧ nonInc cd = false)
  · rw [if_pos hg] at h
    simp at h
  · rw [if_neg hg] at h
    simp only [Option.bind_eq_bind, Option.bind_eq_some] at h
    obtain ⟨tLast, -, tFirst, -, cLast, -, cFirst, -, rate, -, life, -, full, -,
      row, hrow, status, hstatus, htail⟩ := h
    obtain ⟨t, c, rfl⟩ := hsheet row (List.mem_of_getLast?_eq_some hrow)
    have hst : status = PyVal.float c := by simpa using hstatus.symm
    rw [hst] at htail
    rw [if_neg (by simp), if_neg (by simp)] at htail
    simp only [Option.some_bind, Option.some.injEq, TrendResult.trend.injEq] at htail
    exact htail.2.2.2.symm

/-- Witness for C2: a concrete discharging-shaped window where the
analyzer produces a `Trend` whose remaining field is `none`. -/
theorem c2_remaining_always_absent_witness :
    analyze [0, 3600, 7200] [30, 20, 10] [[PyVal.int 7200, PyVal.float 10]] 10 =
        some (TrendResult.trend (-10) (17 / 2) 10 none) ∧
      (none : Option ℚ) = none := by
  constructor
  · norm_num [analyze, nonDec, nonInc, pyDiv, BATTERY_MAX_CHARGE, List.getLast?]
    simp
  · exact c2_remaining_always_absent [0, 3600, 7200] [30, 20, 10]
      [[PyVal.int 7200, PyVal.float 10]] 10
      (by
        intro row hrow
        simp only [List.mem_singleton] at hrow
        exact ⟨7200, 10, hrow⟩)
      (-10) (17 / 2) 10 none
      (by
        norm_num [analyze, nonDec, nonInc, pyDiv, BATTERY_MAX_CHARGE, List.getLast?]
        simp)

/-- Counterexample to claim C3: a 3-sample window with equal first and
last timestamps and monotonic charges makes the analyzer raise
`ZeroDivisionError` (`none`), not return `NoTrend`. -/
theorem c3_zero_range_counterexample :
    analyze [0, 0, 0] [10, 20, 30] [] 0 = none ∧
      analyze [0, 0, 0] [10, 20, 30] [] 0 ≠ some TrendResult.noTrend := by
  have h : analyze [0, 0, 0] [10, 20, 30] [] 0 = none := by
    norm_num [analyze, nonDec, nonInc, pyDiv, BATTERY_MAX_CHARGE, List.getLast?]
  exact ⟨h, by rw [h]; simp⟩

/-- Claim C3 as amended: on a window of at least 3 samples whose first and
last timestamps are equal, the analyzer returns `NoTrend` exactly when the
charge sequence is non-monotonic; otherwise it reaches the rate division
with `t_range = 0` and raises `ZeroDivisionError` (modelled `none`). -/
theorem c3_zero_range_amended (timeline charge_data : List ℚ)
    (sheet : List (List PyVal)) (cc : ℚ)
    (h3 : 3 ≤ timeline.length) (heq : timeline.head? = timeline.getLast?) :
    analyze timeline charge_data sheet cc =
      if nonDec charge_data = false ∧ nonInc charge_data = false then
        some TrendResult.noTrend
      else none := by
  unfold analyze
  by_cases hmono : nonDec charge_data = false ∧ nonInc charge_data = false
  · rw [if_pos (Or.inr hmono), if_pos hmono]
  · rw [if_neg (not_or.mpr ⟨by omega, hmono⟩), if_neg hmono]
    rcases timeline with _ | ⟨a, rest⟩
    · simp at h3
    · have hlast : (a :: rest).getLast? = some a := by rw [← heq]; rfl
      cases hc1 : charge_data.getLast? <;> cases hc2 : charge_data.head? <;>
        simp [hlast, hc1, hc2, pyDiv]

/-- Witness for the amended C3: a degenerate window with non-monotonic
charges still returns `NoTrend`. -/
theorem c3_zero_range_amended_witness :
    analyze [0, 0, 0] [10, 20, 15] [] 0 = some TrendResult.noTrend := by
  have h := c3_zero_range_amended [0, 0, 0] [10, 20, 15] [] 0 (by norm_num) rfl
  rw [h, if_pos]
  constructor <;> norm_num [nonDec, nonInc]

/-- Claim C5: the analyzer returns `NoTrend` iff the window has fewer than
3 samples or its charge sequence is neither entirely non-decreasing nor
entirely non-increasing. -/
theorem c5_noTrend_iff (timeline charge_data : List ℚ) (sheet : List (List PyVal))
    (cc : ℚ) (hlen : timeline.length = charge_data.length) :
    analyze timeline charge_data sheet cc = some TrendResult.noTrend ↔
      charge_data.length < 3 ∨
        ¬ nonDec charge_data = true ∧ ¬ nonInc charge_data = true := by
  unfold analyze
  by_cases hg : timeline.length ≤ 2 ∨ (nonDec charge_data = false ∧ nonInc charge_data = false)
  · rw [if_pos hg]
    constructor
    · intro _
      rcases hg with h | ⟨h1, h2⟩
      · exact Or.inl (by omega)
      · exact Or.inr ⟨by simp [h1], by simp [h2]⟩
    · intro _
      rfl
  · rw [if_neg hg]
    rw [not_or] at hg
    constructor
    · intro h
      exfalso
      simp only [Option.bind_eq_bind, Option.bind_eq_some] at h
      obtain ⟨tLast, -, tFirst, -, cLast, -, cFirst, -, rate, -, life, -, full, -,
        row, -, status, -, htail⟩ := h
      split at htail
      · cases h1 : pyDiv cc |rate| <;> simp [h1] at htail
      · split at htail
        · cases h1 : pyDiv (BATTERY_MAX_CHARGE - cc) |rate| <;> simp [h1] at htail
        · simp at htail
    · intro h
      exfalso
      rcases h with h | ⟨h1, h2⟩
      · exact hg.1 (by omega)
      · exact hg.2 ⟨by simpa using h1, by simpa using h2⟩

/-- Witness for C5: the spec's 2-point example `[(t0,50),(t0+3600,50)]`
yields `NoTrend`. -/
theorem c5_noTrend_iff_witness :
    analyze [0, 3600] [50, 50] [] 0 = some TrendResult.noTrend :=
  (c5_noTrend_iff [0, 3600] [50, 50] [] 0 rfl).mpr (Or.inl (by norm_num))

/-- Counterexample to claim C6: a flat monotonic 3-sample window with
positive time range has `rate = 0`, so the `capLife` division raises
`ZeroDivisionError` (`none`) instead of computing the statistics. -/
theorem c6_flat_counterexample :
    analyze [0, 3600, 7200] [50, 50, 50] [[PyVal.int 7200, PyVal.float 50]] 50 = none := by
  norm_num [analyze, nonDec, nonInc, pyDiv, BATTERY_MAX_CHARGE, List.getLast?]

/-- Claim C6 as amended: on every monotonic window of at least 3 samples
with positive time range AND nonzero net charge change, the analyzer
computes `rate = (last.charge - first.charge) / tRangeHours`,
`capLife = capCharge / |rate|` and `fullLife = 100 / |rate|`. -/
theorem c6_rate_formulas_amended (timeline charge_data : List ℚ)
    (sheet : List (List PyVal)) (cc t0 tn c0 cn : ℚ) (row : List PyVal) (v : PyVal)
    (h3 : 3 ≤ timeline.length)
    (ht0 : timeline.head? = some t0) (htn : timeline.getLast? = some tn)
    (hc0 : charge_data.head? = some c0) (hcn : charge_data.getLast? = some cn)
    (hmono : nonDec charge_data = true ∨ nonInc charge_data = true)
    (hrange : t0 < tn) (hcharge : c0 ≠ cn)
    (hrow : sheet.getLast? = some row) (hv : row.getLast? = some v) :
    ∃ left, analyze timeline charge_data sheet cc =
      some (TrendResult.trend ((cn - c0) / ((tn - t0) / 3600))
        (BATTERY_MAX_CHARGE / |(cn - c0) / ((tn - t0) / 3600)|)
        (100 / |(cn - c0) / ((tn - t0) / 3600)|) left) := by
  have hguard : ¬ (timeline.length ≤ 2 ∨
      (nonDec charge_data = false ∧ nonInc charge_data = false)) := by
    rw [not_or]
    refine ⟨by omega, ?_⟩
    rintro ⟨h1, h2⟩
    rcases hmono with h | h
    · rw [h] at h1; exact absurd h1 (by simp)
    · rw [h] at h2; exact absurd h2 (by simp)
  have htr : (tn - t0) / 3600 ≠ 0 :=
    (div_pos (sub_pos.mpr hrange) (by norm_num)).ne'
  have hrate : (cn - c0) / ((tn - t0) / 3600) ≠ 0 :=
    div_ne_zero (sub_ne_zero.mpr (Ne.symm hcharge)) htr
  have habs : |(cn - c0) / ((tn - t0) / 3600)| ≠ 0 := abs_ne_zero.mpr hrate
  unfold analyze
  rw [if_neg hguard]
  simp only [Option.bind_eq_bind, htn, ht0, hcn, hc0, Option.some_bind]
  rw [pyDiv_of_ne (cn - c0) ((tn - t0) / 3600) htr]
  simp only [Option.some_bind]
  rw [pyDiv_of_ne BATTERY_MAX_CHARGE |(cn - c0) / ((tn - t0) / 3600)| habs]
  simp only [Option.some_bind]
  rw [pyDiv_of_ne 100 |(cn - c0) / ((tn - t0) / 3600)| habs]
  simp only [Option.some_bind, hrow, hv]
  by_cases hd : v = PyVal.str "discharging"
  · rw [if_pos hd, pyDiv_of_ne cc |(cn - c0) / ((tn - t0) / 3600)| habs]
    simp only [Option.map_some', Option.some_bind]
    exact ⟨_, rfl⟩
  · rw [if_neg hd]
    by_cases hch : v = PyVal.str "charging"
    · rw [if_pos hch,
        pyDiv_of_ne (BATTERY_MAX_CHARGE - cc) |(cn - c0) / ((tn - t0) / 3600)| habs]
      simp only [Option.map_some', Option.some_bind]
      exact ⟨_, rfl⟩
    · rw [if_neg hch]
      exact ⟨_, rfl⟩

/-- Witness for the amended C6: the spec's strictly increasing example
`[(t0,10),(t0+3600,20),(t0+7200,30)]` yields `rate = 10 %/hour`,
`capLife = 85/10` and `fullLife = 10`. -/
theorem c6_rate_formulas_amended_witness :
    ∃ left, analyze [0, 3600, 7200] [10, 20, 30] [[PyVal.int 7200, PyVal.float 30]] 30 =
      some (TrendResult.trend 10 (17 / 2) 10 left) := by
  obtain ⟨left, hl⟩ := c6_rate_formulas_amended [0, 3600, 7200] [10, 20, 30]
    [[PyVal.int 7200, PyVal.float 30]] 30 0 7200 10 30 [PyVal.int 7200, PyVal.float 30]
    (PyVal.float 30) (by norm_num) rfl rfl rfl rfl
    (Or.inl (by norm_num [nonDec])) (by norm_num) (by norm_num) rfl rfl
  refine ⟨left, ?_⟩
  rw [hl]
  norm_num [BATTERY_MAX_CHARGE, abs_of_pos]

/-! ## Claim about the window selector -/

/-- Claim C4: the computed window always satisfies `start < end`; when the
requested bounds violate it, the corrected bounds give exactly a 0.1-hour
(360 s) window and the corrected value is written back to the slider. -/
theorem c4_window_start_lt_end (sMin sMax now : ℚ) :
    (update_window sMin sMax now).1 < (update_window sMin sMax now).2 ∧
      (- sMin ≥ - sMax →
        (update sMin sMax).max_history = (update sMin sMax).min_history + 1 / 10 ∧
          (update sMin sMax).slider_max_val = - (update sMin sMax).max_history ∧
          (update_window sMin sMax now).2 = (update_window sMin sMax now).1 + 360) := by
  unfold update_window plot_range update
  by_cases h : - sMin ≥ - sMax
  · rw [if_pos h]
    dsimp only
    refine ⟨by linarith, fun _ => ⟨rfl, rfl, by ring⟩⟩
  · rw [if_neg h]
    dsimp only
    refine ⟨by push_neg at h; linarith, fun hc => absurd hc h⟩

/-- Witness for C4 at the degenerate request `from = to = 0`: the window
is corrected to exactly 0.1 hour. -/
theorem c4_window_start_lt_end_witness :
    (update_window 0 0 0).1 < (update_window 0 0 0).2 ∧
      (update 0 0).max_history = (update 0 0).min_history + 1 / 10 ∧
      (update_window 0 0 0).2 = (update_window 0 0 0).1 + 360 :=
  ⟨(c4_window_start_lt_end 0 0 0).1,
    ((c4_window_start_lt_end 0 0 0).2 (by norm_num)).1,
    ((c4_window_start_lt_end 0 0 0).2 (by norm_num)).2.2⟩
